import Mathlib

/-!
# Verification of the acacia extension gateway

Shallow embedding of the acacia request-interception gateway:
the transpile manager's static security validation
(`src/services/transpileManager.ts`), the extension middleware pipeline
(`src/services/extensionMiddleware.ts`, second variant), the route matcher,
extension/route cache, tenant data gateway, and the extension service's
install/uninstall/update/rollback operations (`src/db/client.ts`).
-/

set_option autoImplicit false

namespace Acacia

/-! ## A small regular-expression engine

`TranspileManager.validateCodeSecurity` tests JavaScript regular expressions
against the extension source.  We embed exactly the constructs those seven
patterns use: literals, character classes, concatenation, alternation and
Kleene star, matched with Brzozowski derivatives.  All the source patterns
carry the `i` flag, so literal characters compare case-insensitively
(the input character is lowercased; pattern literals are stored lowercase).
`RegExp.test` is unanchored substring search, modelled by wrapping the
pattern between `.*`-with-newlines on both sides. -/

inductive RE where
  | fail
  | eps
  | chr (c : Char)
  | cls (f : Char → Bool)
  | seq (a b : RE)
  | alt (a b : RE)
  | star (a : RE)

def RE.nullable : RE → Bool
  | .fail => false
  | .eps => true
  | .chr _ => false
  | .cls _ => false
  | .seq a b => a.nullable && b.nullable
  | .alt a b => a.nullable || b.nullable
  | .star _ => true

def RE.deriv (r : RE) (c : Char) : RE :=
  match r with
  | .fail => .fail
  | .eps => .fail
  | .chr a => if a = c.toLower then .eps else .fail
  | .cls f => if f c then .eps else .fail
  | .seq a b => if a.nullable then .alt (.seq (a.deriv c) b) (b.deriv c) else .seq (a.deriv c) b
  | .alt a b => .alt (a.deriv c) (b.deriv c)
  | .star a => .seq (a.deriv c) (.star a)

def RE.matchFull (r : RE) : List Char → Bool
  | [] => r.nullable
  | c :: cs => (r.deriv c).matchFull cs

/-- Concatenation of a list of regexes. -/
def RE.seqList (rs : List RE) : RE := rs.foldr RE.seq RE.eps

/-- Case-insensitive literal string (stored lowercase, like the source patterns). -/
def RE.lit (s : String) : RE := RE.seqList (s.data.map RE.chr)

/-- One or more repetitions, for the `+` quantifier. -/
def RE.plus (r : RE) : RE := .seq r (.star r)

/-- Alternation of a list of regexes, for `(a|b|...)` groups. -/
def RE.altList : List RE → RE
  | [] => .fail
  | [r] => r
  | r :: rs => .alt r (RE.altList rs)

/-- JavaScript `\s`: whitespace class (the ASCII members; the patterns in
the source are only ever applied to program text). -/
def jsWhitespace (c : Char) : Bool :=
  c = ' ' || c = '\t' || c = '\n' || c = '\r' || c = '\x0b' || c = '\x0c'

/-- JavaScript `.` without the `s` flag: any character except a line break. -/
def jsDot (c : Char) : Bool := !(c = '\n' || c = '\r')

/-- JavaScript quote character class: a single or a double quote. -/
def jsQuote (c : Char) : Bool := c = Char.ofNat 39 || c = '"'

/-- Any character at all (used to make `test` an unanchored substring search). -/
def anyChar : RE := .cls (fun _ => true)

/-- Semantics of `RegExp.prototype.test`: true iff some substring of `s` matches `r`.
(The patterns in `validateCodeSecurity` are freshly constructed on each call,
so the statefulness of `lastIndex` under the `g` flag never matters there.) -/
def reTest (r : RE) (s : String) : Bool :=
  RE.matchFull (.seq (.star anyChar) (.seq r (.star anyChar))) s.data

/-! ## TranspileManager.validateCodeSecurity (src/services/transpileManager.ts) -/

/-- Pattern `/require\s*\(/gi`. -/
def reRequireCall : RE := .seq (RE.lit "require") (.seq (.star (.cls jsWhitespace)) (.chr '('))

/-- Pattern for a quoted dangerous-module import: `import`, whitespace,
anything, whitespace, `from`, whitespace, a quote, one of fs, child_process,
os, net, http, https, and a closing quote (the gi-flagged source regex). -/
def reDangerousImport : RE :=
  RE.seqList
    [ RE.lit "import", RE.plus (.cls jsWhitespace), .star (.cls jsDot),
      RE.plus (.cls jsWhitespace), RE.lit "from", RE.plus (.cls jsWhitespace),
      .cls jsQuote,
      RE.altList
        [ RE.lit "fs", RE.lit "child_process", RE.lit "os", RE.lit "net",
          RE.lit "http", RE.lit "https" ],
      .cls jsQuote ]

/-- Pattern `/process\./gi`. -/
def reProcessAccess : RE := .seq (RE.lit "process") (.chr '.')

/-- Pattern `/__proto__/gi`. -/
def reProto : RE := RE.lit "__proto__"

/-- Pattern `/constructor\.constructor/gi`. -/
def reCtorCtor : RE := .seq (RE.lit "constructor") (.seq (.chr '.') (RE.lit "constructor"))

/-- Pattern `/Function\s*\(/gi`. -/
def reFunctionCall : RE := .seq (RE.lit "function") (.seq (.star (.cls jsWhitespace)) (.chr '('))

/-- Pattern `/eval\s*\(/gi`. -/
def reEvalCall : RE := .seq (RE.lit "eval") (.seq (.star (.cls jsWhitespace)) (.chr '('))

/-- The `dangerousPatterns` table of `validateCodeSecurity`, with the
source's messages. -/
def dangerousPatterns : List (RE × String) :=
  [ (reRequireCall, "Use of require() detected"),
    (reDangerousImport, "Import of dangerous Node.js module detected"),
    (reProcessAccess, "Access to process object detected"),
    (reProto, "Prototype manipulation detected"),
    (reCtorCtor, "Constructor manipulation detected"),
    (reFunctionCall, "Dynamic function construction detected"),
    (reEvalCall, "Use of eval() detected") ]

structure SecurityResult where
  isValid : Bool
  issues : List String

/-- Model of `TranspileManager.validateCodeSecurity`: collect the message of every
matching dangerous pattern; the code is valid iff no pattern matched. -/
def validateCodeSecurity (code : String) : SecurityResult :=
  let issues := dangerousPatterns.filterMap
    (fun p => if reTest p.1 code then some p.2 else none)
  { isValid := issues.length == 0, issues := issues }

/-- The claim's notion of a source "containing a reference to a disallowed
capability", which for this scanner is: one of its patterns matches. -/
def referencesDisallowedCapability (code : String) : Bool :=
  dangerousPatterns.any (fun p => reTest p.1 code)


/-! ## JavaScript values

A minimal model of the JavaScript values flowing through the pipeline:
hook results, request bodies and proxied response data.  Objects are
association lists of fields.  Spreading a non-object (`{...s}` on a string
produces index keys, etc.) is approximated by the empty field list; no claim
depends on that corner. -/

inductive JVal where
  | jundef
  | jnull
  | jbool (b : Bool)
  | jnum (n : Int)
  | jstr (s : String)
  | jarr (items : List JVal)
  | jobj (fields : List (String × JVal))

/-- JavaScript truthiness. -/
def JVal.truthy : JVal → Bool
  | .jundef => false
  | .jnull => false
  | .jbool b => b
  | .jnum n => !(n = 0)
  | .jstr s => !(s = "")
  | .jarr _ => true
  | .jobj _ => true

/-- The test `typeof v === "object" && v !== null` (arrays are objects in JS). -/
def JVal.isObj : JVal → Bool
  | .jobj _ => true
  | .jarr _ => true
  | _ => false

/-- Fields seen by an object spread `{...v}` (non-objects contribute nothing;
string index keys are not modelled). -/
def JVal.toFields : JVal → List (String × JVal)
  | .jobj fields => fields
  | _ => []

/-- Property access `v.k` on an object; `undefined` (i.e. `none`) otherwise. -/
def JVal.objLookup (v : JVal) (k : String) : Option JVal :=
  match v with
  | .jobj fields => (fields.find? (fun p => p.1 == k)).map (fun p => p.2)
  | _ => none

/-- Object spread of `a` then `b`, also `Object.assign(a, b)`: keys of `a` in order with values
overridden by `b`, then the keys only `b` has. -/
def mergeFields (a b : List (String × JVal)) : List (String × JVal) :=
  a.map (fun p => (p.1, ((b.find? (fun q => q.1 == p.1)).map (fun q => q.2)).getD p.2))
    ++ b.filter (fun q => a.all (fun p => !(p.1 == q.1)))

/-! ## Hooks and ExtensionMiddleware.executeFunctions
(src/services/extensionMiddleware.ts, lines 1077–1184)

A hook is one row of the result of `findMatchingExtensions`.  The outcome of the
sandboxed run of its (transpiled) code is untrusted JavaScript and is
modelled as an oracle `behavior`: the transpiler may fail, the handler may
throw (or time out, which surfaces as the same rejection), or it returns a
value.  `executeFunctions` consults the oracle only after
`validateCodeSecurity` accepts the source, mirroring the order in the
source. -/

inductive HookBehavior where
  | transpileError (e : String)
  | throws (e : String)
  | returns (v : JVal)

structure Hook where
  extensionId : String
  functionId : String
  functionType : String
  functionCode : String
  behavior : HookBehavior

structure ExecutionResult where
  success : Bool
  data : JVal
  error : Option String

structure LogEntry where
  functionId : String
  success : Bool
  error : Option String

/-- One iteration of the loop of `executeFunctions`: the result pushed, the row
appended to `function_logs`, and whether the executor
(`transpileManager.executeTranspiledCode`) was ever invoked. -/
structure HookRun where
  result : ExecutionResult
  log : LogEntry
  executorInvoked : Bool

def runHook (h : Hook) : HookRun :=
  if (validateCodeSecurity h.functionCode).isValid then
    match h.behavior with
    | .transpileError e =>
      { result := ⟨false, .jundef, some ("Code transpilation failed: " ++ e)⟩,
        log := ⟨h.functionId, false, some ("Code transpilation failed: " ++ e)⟩,
        executorInvoked := false }
    | .throws e =>
      { result := ⟨false, .jundef, some e⟩, log := ⟨h.functionId, false, some e⟩,
        executorInvoked := true }
    | .returns v =>
      { result := ⟨true, v, none⟩, log := ⟨h.functionId, true, none⟩,
        executorInvoked := true }
  else
    { result := ⟨false, .jundef,
        some ("Security validation failed: " ++
          String.intercalate ", " (validateCodeSecurity h.functionCode).issues)⟩,
      log := ⟨h.functionId, false,
        some ("Security validation failed: " ++
          String.intercalate ", " (validateCodeSecurity h.functionCode).issues)⟩,
      executorInvoked := false }

/-- Model of `executeFunctions`: every hook is run in order; a failure is caught,
logged and recorded as an unsuccessful result, never aborting the loop. -/
def executeFunctions (hooks : List Hook) : List HookRun :=
  hooks.map runHook

/-! ## The interception pipeline: ExtensionMiddleware.handle
(src/services/extensionMiddleware.ts, lines 861–1014, the Hono variant) -/

structure Request where
  method : String
  path : String
  query : List (String × JVal)
  body : JVal
  headers : List (String × JVal)

structure ProxyResp where
  data : JVal
  status : Nat
  headers : List (String × JVal)

structure ComponentInjection where
  componentId : String
  code : String
  props : JVal
  placement : JVal

inductive HandleOutcome where
  | next
  | respond (status : Nat) (headers : List (String × JVal)) (body : JVal)

def HandleOutcome.isRespond : HandleOutcome → Bool
  | .next => false
  | .respond _ _ _ => true

/-- Observable side effects of one `handle` call: how many times
`proxyToOriginal` ran, which after/transform hooks were executed, and the
execution-log rows appended. -/
structure Trace where
  originCalls : Nat
  afterExecuted : List Hook
  logs : List LogEntry

/-- Applying one before-hook result to the request context (lines 911–929):
successful results with truthy data merge their `headers`, `body` and
`query` members into the request; everything else contributes nothing. -/
def applyBeforeModsStep (req : Request) (r : ExecutionResult) : Request :=
  if r.success && r.data.truthy then
    let headers1 := match r.data.objLookup "headers" with
      | some hv => if hv.truthy then mergeFields req.headers hv.toFields else req.headers
      | none => req.headers
    let body1 := match r.data.objLookup "body" with
      | some bv => if bv.truthy then JVal.jobj (mergeFields req.body.toFields bv.toFields) else req.body
      | none => req.body
    let query1 := match r.data.objLookup "query" with
      | some qv => if qv.truthy then mergeFields req.query qv.toFields else req.query
      | none => req.query
    { req with headers := headers1, body := body1, query := query1 }
  else req

def applyBeforeMods (req : Request) (rs : List ExecutionResult) : Request :=
  rs.foldl applyBeforeModsStep req

/-- Model of `ExtensionMiddleware.mergeResults` (lines 1393–1408): shallow-merge each
successful object result into the accumulating response data, left to
right. -/
def mergeStep (acc : List (String × JVal)) (r : ExecutionResult) : List (String × JVal) :=
  if r.success && r.data.truthy && r.data.isObj then mergeFields acc r.data.toFields else acc

def mergeResults (originalData : JVal) (rs : List ExecutionResult) : JVal :=
  .jobj (rs.foldl mergeStep originalData.toFields)

/-- Model of `ExtensionMiddleware.injectComponents` (lines 1375–1390). -/
def injectComponents (data : JVal) (comps : List ComponentInjection) : JVal :=
  if comps.isEmpty then data
  else
    .jobj (mergeFields data.toFields
      [("__acacia_components",
        .jarr (comps.map (fun c =>
          .jobj [("id", .jstr c.componentId), ("code", .jstr c.code),
                 ("props", c.props), ("placement", c.placement)])))])

/-- Status selection `c.status(successfulReplace.data?.status || 200)` (line 944): a truthy
numeric `status` member, else 200. -/
def replaceStatus (d : JVal) : Nat :=
  match d.objLookup "status" with
  | some (.jnum n) => if n = 0 then 200 else n.toNat
  | _ => 200

/-- Header propagation of the replace branch (lines 945–955): a truthy
`headers` member has its keys lowercased and set one by one. -/
def replaceHeaders (d : JVal) : List (String × JVal) :=
  match d.objLookup "headers" with
  | some hv => if hv.truthy then hv.toFields.map (fun p => (p.1.toLower, p.2)) else []
  | none => []

/-- Body selection `successfulReplace.data?.body ?? successfulReplace.data` (line 956). -/
def replaceBody (d : JVal) : JVal :=
  match d.objLookup "body" with
  | some .jundef => d
  | some .jnull => d
  | some v => v
  | none => d

/-- Status overrides from after/transform results (lines 996–1002):
`if (result.data.status) finalStatus = result.data.status`. -/
def applyStatusOverrides (s0 : Nat) (rs : List ExecutionResult) : Nat :=
  rs.foldl
    (fun s r =>
      if r.success && r.data.truthy then
        match r.data.objLookup "status" with
        | some (.jnum n) => if n = 0 then s else n.toNat
        | _ => s
      else s) s0

/-- Header overrides from after/transform results (lines 996–1002). -/
def applyHeaderOverrides (h0 : List (String × JVal)) (rs : List ExecutionResult) :
    List (String × JVal) :=
  rs.foldl
    (fun hs r =>
      if r.success && r.data.truthy then
        match r.data.objLookup "headers" with
        | some hv => if hv.truthy then mergeFields hs hv.toFields else hs
        | none => hs
      else hs) h0

/-- The replace-phase execution results, in binding order.  (In the source
`executeFunctions` is only called when the filtered list is non-empty; for an
empty list it returns `[]`, so the guard is behaviourally redundant.) -/
def replaceResults (matching : List Hook) : List ExecutionResult :=
  (executeFunctions (matching.filter (fun h => h.functionType == "replace"))).map
    (fun hr => hr.result)

/-- Model of `ExtensionMiddleware.handle`.  `matching` is the result of
`findMatchingExtensions` (modelled separately), `proxy` the behaviour of
`proxyToOriginal` on the (possibly before-modified) request, and `comps` the
component rows of `getComponentsForRoute`.  The top-level `try`/`catch`
around the body turns a proxy failure into `next()`. -/
def handle (matching : List Hook) (userId : Option String) (req : Request)
    (proxy : Request → Except String ProxyResp) (comps : List ComponentInjection) :
    HandleOutcome × Trace :=
  match userId with
  | none => (.next, ⟨0, [], []⟩)
  | some _ =>
    if matching.isEmpty then (.next, ⟨0, [], []⟩)
    else
      let beforeRuns := executeFunctions (matching.filter (fun h => h.functionType == "before"))
      let req1 := applyBeforeMods req (beforeRuns.map (fun hr => hr.result))
      let rRuns := executeFunctions (matching.filter (fun h => h.functionType == "replace"))
      let logs0 := beforeRuns.map (fun hr => hr.log) ++ rRuns.map (fun hr => hr.log)
      match (rRuns.map (fun hr => hr.result)).find? (fun r => r.success) with
      | some r =>
        (.respond (replaceStatus r.data) (replaceHeaders r.data) (replaceBody r.data),
         ⟨0, [], logs0⟩)
      | none =>
        match proxy req1 with
        | .error _ => (.next, ⟨1, [], logs0⟩)
        | .ok presp =>
          let afterHooks := matching.filter
            (fun h => h.functionType == "after" || h.functionType == "transform")
          let aRuns := executeFunctions afterHooks
          let aResults := aRuns.map (fun hr => hr.result)
          let finalData := injectComponents (mergeResults presp.data aResults) comps
          let finalStatus := applyStatusOverrides presp.status aResults
          let finalHeaders := applyHeaderOverrides presp.headers aResults
          (.respond (if finalStatus == 0 then 200 else finalStatus) finalHeaders finalData,
           ⟨1, afterHooks, logs0 ++ aRuns.map (fun hr => hr.log)⟩)

/-! ## Route matching -/

/-- One row of `extension_routes` (src/db/schema.ts, second variant). -/
structure ExtensionRoute where
  method : String
  pathPattern : String
  patternType : String
deriving DecidableEq

namespace ExtensionService

/-- Model of `ExtensionService.routeMatches` (src/db/client.ts, lines 511–540).
`regexTest p path` stands for `try { new RegExp(p).test(path) } catch
{ false }`; the claims touch only the `exact` arm, so the regex oracle is a
parameter. -/
def routeMatches (regexTest : String → String → Bool) (route : ExtensionRoute)
    (method path : String) : Bool :=
  if route.method != "*" && route.method != method then false
  else if route.patternType == "exact" then route.pathPattern == path
  else if route.patternType == "prefix" then path.startsWith route.pathPattern
  else if route.patternType == "regex" then regexTest route.pathPattern path
  else false

end ExtensionService

namespace ExtensionMiddleware

/-- Model of `ExtensionMiddleware.routeMatches` (src/services/extensionMiddleware.ts,
lines 1411–1449): method wildcard is `"ALL"`; a path matches if byte-equal
or segment-wise with `:param` wildcards. -/
def routeMatches (pattern patternMethod requestPath requestMethod : String) : Bool :=
  if patternMethod != "ALL" && patternMethod != requestMethod then false
  else if pattern == requestPath then true
  else
    let patternParts := pattern.splitOn "/"
    let pathParts := requestPath.splitOn "/"
    if !(patternParts.length == pathParts.length) then false
    else (patternParts.zip pathParts).all
      (fun p => p.1.startsWith ":" || p.1 == p.2)

end ExtensionMiddleware

/-! ## The extension/route cache and snapshot ordering
(`ExtensionMiddleware.findMatchingExtensions`, lines 1017–1074)

One joined row of the query.  The query ends in `.orderBy(routes.priority)`,
which drizzle renders as `ORDER BY priority` — SQL default ASCENDING.  SQL
leaves the relative order of equal keys unspecified; we model the sort as a
stable insertion sort on the insertion order of the rows (the tie order is
irrelevant to every claim settled here, because the refuting input differs
already in sort direction). -/

structure RouteRow where
  extensionId : String
  functionId : String
  functionCode : String
  functionType : String
  routePath : String
  routeMethod : String
  priority : Int
deriving DecidableEq

/-- Insert keeping ascending priority, after existing rows of priority ≤. -/
def insertAsc (x : RouteRow) : List RouteRow → List RouteRow
  | [] => [x]
  | y :: ys => if x.priority < y.priority then x :: y :: ys else y :: insertAsc x ys

/-- The order `ORDER BY priority` (ascending), as produced by `.orderBy(routes.priority)`. -/
def dbOrderByPriorityAsc (rows : List RouteRow) : List RouteRow :=
  rows.foldl (fun acc x => insertAsc x acc) []

/-- Modelled from the spec's words, for comparison with the code: a stable
sort by priority descending — higher priority first, ties in insertion
order. -/
def insertDescSpec (x : RouteRow) : List RouteRow → List RouteRow
  | [] => [x]
  | y :: ys => if x.priority > y.priority then x :: y :: ys else y :: insertDescSpec x ys

/-- Modelled from the spec's words: the execution order the spec requires
("priority descending, ties broken by insertion order (stable sort)"). -/
def specStableSortDesc (rows : List RouteRow) : List RouteRow :=
  rows.foldl (fun acc x => insertDescSpec x acc) []

structure CacheEntry where
  data : List RouteRow
  timestamp : Nat
deriving DecidableEq

/-- The cache-miss path of `findMatchingExtensions`: query the store (rows
arrive ordered by priority ascending), filter by `routeMatches`, and cache
the matches with the current time.  A failing query propagates its error —
there is no `try`/`catch` in `findMatchingExtensions`. -/
def reloadMatching (loadRows : Except String (List RouteRow)) (reqPath reqMethod : String)
    (now : Nat) : Except String (List RouteRow × CacheEntry) :=
  match loadRows with
  | .error e => .error e
  | .ok rows =>
    let matched := (dbOrderByPriorityAsc rows).filter
      (fun rr => ExtensionMiddleware.routeMatches rr.routePath rr.routeMethod reqPath reqMethod)
    .ok (matched, ⟨matched, now⟩)

/-- Model of `findMatchingExtensions`: serve the cached entry while
`now - timestamp < cacheExpiry` (cacheExpiry = 300000 ms in the source),
otherwise reload synchronously before returning. -/
def findMatchingExtensions (cache : Option CacheEntry) (now cacheExpiry : Nat)
    (loadRows : Except String (List RouteRow)) (reqPath reqMethod : String) :
    Except String (List RouteRow × CacheEntry) :=
  match cache with
  | some c =>
    if now - c.timestamp < cacheExpiry then .ok (c.data, c)
    else reloadMatching loadRows reqPath reqMethod now
  | none => reloadMatching loadRows reqPath reqMethod now

/-- The entry is absent or at/past its TTL, so `findMatchingExtensions`
cannot serve it. -/
def cacheStale (cache : Option CacheEntry) (now cacheExpiry : Nat) : Bool :=
  match cache with
  | some c => !(now - c.timestamp < cacheExpiry)
  | none => true

/-! ## Tenant data gateway
(`ExtensionMiddleware.createDatabaseInterface` / `validateTableAccess` /
`getUserExtensionTables` / `safeIdentifier`, lines 1224–1305 and 1452–1474) -/

/-- One row of `user_extensions` as far as the gateway reads it. -/
structure Registration where
  userId : String
  extensionId : String
  dataTableName : Option String
deriving DecidableEq

/-- Model of `getUserExtensionTables`: the `dataTableName`s of all the user's
installations, `.filter(Boolean)` dropping nulls and empty strings. -/
def getUserExtensionTables (regs : List Registration) (userId : String) : List String :=
  (regs.filter (fun r => r.userId == userId)).filterMap
    (fun r => match r.dataTableName with
      | some s => if s == "" then none else some s
      | none => none)

/-- Model of `validateTableAccess`: derive `ext_<userId>_<tableName>` from the raw
user id and require it to be one of the user's registered tables. -/
def validateTableAccess (regs : List Registration) (userId tableName : String) :
    Except String Unit :=
  if (getUserExtensionTables regs userId).contains ("ext_" ++ userId ++ "_" ++ tableName) then
    .ok ()
  else .error ("Access denied to table: " ++ tableName)

/-- The allow-list `/^[a-zA-Z0-9_]+$/` of `safeIdentifier`. -/
def isSafeIdentChars (name : String) : Bool :=
  !(name == "") && name.data.all (fun c => c.isAlphanum || c = '_')

/-- Model of `safeIdentifier`: reject any identifier outside the allow-list pattern. -/
def safeIdentifier (name : String) : Except String String :=
  if isSafeIdentChars name then .ok name
  else .error ("Invalid identifier: " ++ name)

/-- A DML statement issued to the storage layer.  The typed calls produce a
statement only on full success; an `Except.error` result issues nothing. -/
inductive SqlStmt where
  | insertStmt (table : String) (columns : List String)
  | updateStmt (table : String) (setColumns whereColumns : List String)
  | deleteStmt (table : String) (whereColumns : List String)
deriving DecidableEq

/-- Model of `database.insert` of `createDatabaseInterface` (lines 1247–1261). -/
def databaseInsert (regs : List Registration) (userId tableName : String)
    (data : List (String × String)) : Except String SqlStmt := do
  let _ ← validateTableAccess regs userId tableName
  let fullTableName := "ext_" ++ userId ++ "_" ++ tableName
  let table ← safeIdentifier fullTableName
  let columns ← data.mapM (fun p => safeIdentifier p.1)
  .ok (.insertStmt table columns)

/-- Model of `database.update` (lines 1263–1286). -/
def databaseUpdate (regs : List Registration) (userId tableName : String)
    (data whereData : List (String × String)) : Except String SqlStmt := do
  let _ ← validateTableAccess regs userId tableName
  let fullTableName := "ext_" ++ userId ++ "_" ++ tableName
  let table ← safeIdentifier fullTableName
  let setColumns ← data.mapM (fun p => safeIdentifier p.1)
  let whereColumns ← whereData.mapM (fun p => safeIdentifier p.1)
  .ok (.updateStmt table setColumns whereColumns)

/-- Model of `database.delete` (lines 1288–1303). -/
def databaseDelete (regs : List Registration) (userId tableName : String)
    (whereData : List (String × String)) : Except String SqlStmt := do
  let _ ← validateTableAccess regs userId tableName
  let fullTableName := "ext_" ++ userId ++ "_" ++ tableName
  let table ← safeIdentifier fullTableName
  let whereColumns ← whereData.mapM (fun p => safeIdentifier p.1)
  .ok (.deleteStmt table whereColumns)

/-- The claim's "(user, extension) pair has logical name `t` registered":
that pair's installation row carries exactly the physical name the gateway
would derive for `t`. -/
def registeredForPair (regs : List Registration) (userId extensionId tableName : String) : Bool :=
  regs.any (fun r =>
    r.userId == userId && r.extensionId == extensionId &&
    r.dataTableName == some ("ext_" ++ userId ++ "_" ++ tableName))

/-! ## extensionService.installExtension / uninstallExtension
(src/db/client.ts, first variant, lines 263–382) -/

/-- Rewrite `userId.replace(dash-regex, "_")`: every hyphen becomes an underscore. -/
def replaceDash (s : String) : String :=
  String.mk (s.data.map (fun c => if c = '-' then '_' else c))

/-- The physical table identifier chosen at install time: `ext_` then the
dash-rewritten user id, `_`, the dash-rewritten extension id, `_`, and
`timestamp = Date.now()` rendered in decimal. -/
def extTableName (userId extensionId ts : String) : String :=
  "ext_" ++ replaceDash userId ++ "_" ++ replaceDash extensionId ++ "_" ++ ts

structure UserExtensionRow where
  userId : String
  extensionId : String
  dataTableName : Option String
deriving DecidableEq

/-- The storage visible to install/uninstall: the `extensions` ids with
their install counts, the `extension_schemas` rows (an extension may declare
a schema, `none` modelling a null `schema` column), the `user_extensions`
rows and the set of physical extension tables. -/
structure InstallState where
  extensionIds : List String
  installCounts : List (String × Nat)
  schemaRows : List (String × Option (List (String × String)))
  userExtensions : List UserExtensionRow
  tables : List String
deriving DecidableEq

/-- Model of `dbClient.createExtensionTable`, which issues `CREATE TABLE IF NOT EXISTS`. -/
def createTableIfNotExists (tables : List String) (name : String) : List String :=
  if tables.contains name then tables else tables ++ [name]

/-- Model of `extensionService.installExtension`: reject unknown or already-installed
extensions; when schema rows exist, derive one timestamped table name and
create the table for each schema row (the repeats are absorbed by
`IF NOT EXISTS`); record the installation and bump the install count. -/
def installExtension (st : InstallState) (userId extensionId ts : String) :
    Except String InstallState :=
  if !(st.extensionIds.contains extensionId) then .error "Extension not found"
  else if st.userExtensions.any
      (fun r => r.userId == userId && r.extensionId == extensionId) then
    .error "Extension already installed"
  else
    let schemas := st.schemaRows.filter (fun p => p.1 == extensionId)
    let dataTableName :=
      if schemas.isEmpty then none else some (extTableName userId extensionId ts)
    let tables1 :=
      schemas.foldl
        (fun acc row => match row.2 with
          | some _ => createTableIfNotExists acc (extTableName userId extensionId ts)
          | none => acc)
        st.tables
    .ok { st with
      tables := tables1
      userExtensions := st.userExtensions ++ [⟨userId, extensionId, dataTableName⟩]
      installCounts := st.installCounts.map
        (fun p => if p.1 == extensionId then (p.1, p.2 + 1) else p) }

/-- Model of `extensionService.uninstallExtension`: drop the recorded data table
(`DROP TABLE IF EXISTS`), delete the installation rows, and decrement the
install count clamped at zero (`GREATEST(count - 1, 0)`). -/
def uninstallExtension (st : InstallState) (userId extensionId : String) :
    Except String InstallState :=
  match st.userExtensions.find?
      (fun r => r.userId == userId && r.extensionId == extensionId) with
  | none => .error "Extension not installed"
  | some row =>
    let tables1 := match row.dataTableName with
      | some n => st.tables.filter (fun t => !(t == n))
      | none => st.tables
    .ok { st with
      tables := tables1
      userExtensions := st.userExtensions.filter
        (fun r => !(r.userId == userId && r.extensionId == extensionId))
      installCounts := st.installCounts.map
        (fun p => if p.1 == extensionId then (p.1, p.2 - 1) else p) }

/-! ## ExtensionService.updateExtension / rollbackExtension
(src/db/client.ts, second variant, lines 586–624 and 694–720) -/

structure ExtRecord where
  id : String
  code : String
  version : Nat
deriving DecidableEq

structure VersionRecord where
  extensionId : String
  version : Nat
  code : String
  changeDescription : Option String
  createdBy : Option String
deriving DecidableEq

structure ExtDb where
  extensions : List ExtRecord
  versions : List VersionRecord
deriving DecidableEq

/-- Model of `ExtensionService.updateExtension`: look the extension up, set its code
and `version + 1`, and append a version record carrying the new number. -/
def updateExtension (db : ExtDb) (extensionId code : String)
    (changeDescription createdBy : Option String) : Except String ExtDb :=
  match db.extensions.find? (fun r => r.id == extensionId) with
  | none => .error "Extension not found"
  | some ext =>
    .ok { extensions := db.extensions.map
            (fun r => if r.id == extensionId then
              { r with code := code, version := ext.version + 1 } else r)
          versions := db.versions ++
            [⟨extensionId, ext.version + 1, code, changeDescription, createdBy⟩] }

/-- Model of `ExtensionService.rollbackExtension`: find the target version record and
write its code back onto the extension row.  No version record is appended
and the version counter is left untouched. -/
def rollbackExtension (db : ExtDb) (extensionId : String) (targetVersion : Nat) :
    Except String ExtDb :=
  match db.versions.find?
      (fun v => v.extensionId == extensionId && v.version == targetVersion) with
  | none => .error "Version not found"
  | some ver =>
    let exts := db.extensions.map
      (fun r => if r.id == extensionId then { r with code := ver.code } else r)
    .ok { db with extensions := exts }

/-! ## Concrete instances used by witnesses and counterexamples -/

/-- A hook whose source calls a dynamic-code primitive. -/
def c3hook : Hook :=
  { extensionId := "extA", functionId := "fnA", functionType := "replace",
    functionCode := "eval (x)", behavior := .returns .jnull }

/-- A replace hook that throws at run time. -/
def c1hookFail : Hook :=
  { extensionId := "eA", functionId := "fA", functionType := "replace",
    functionCode := "return 0", behavior := .throws "boom" }

/-- A replace hook that succeeds with a `body` member. -/
def c1hookOk : Hook :=
  { extensionId := "eB", functionId := "fB", functionType := "replace",
    functionCode := "return 1", behavior := .returns (.jobj [("body", .jstr "hi")]) }

/-- Another succeeding replace hook, bound after `c1hookOk`. -/
def c1hookOk2 : Hook :=
  { extensionId := "eC", functionId := "fC", functionType := "replace",
    functionCode := "return 2", behavior := .returns (.jstr "other") }

/-- Three replace bindings of which the first fails and the second and third
succeed: the spec's three-unit scenario. -/
def c1matching : List Hook := [c1hookFail, c1hookOk, c1hookOk2]

/-- A bare request. -/
def c1req : Request := { method := "GET", path := "/x", query := [], body := .jundef, headers := [] }

/-- An after hook that throws at run time. -/
def c4hook : Hook :=
  { extensionId := "eT", functionId := "fT", functionType := "after",
    functionCode := "return 1", behavior := .throws "boom" }

/-- An exact route binding. -/
def c7route : ExtensionRoute :=
  { method := "GET", pathPattern := "/api/users", patternType := "exact" }

/-- Three bindings of priorities 5, 5, 10, inserted in that order, all
matching `GET /x` exactly. -/
def c2rows : List RouteRow :=
  [ { extensionId := "e1", functionId := "a", functionCode := "return",
      functionType := "before", routePath := "/x", routeMethod := "GET", priority := 5 },
    { extensionId := "e2", functionId := "b", functionCode := "return",
      functionType := "before", routePath := "/x", routeMethod := "GET", priority := 5 },
    { extensionId := "e3", functionId := "c", functionCode := "return",
      functionType := "before", routePath := "/x", routeMethod := "GET", priority := 10 } ]

/-- The function ids of a load result, in served order. -/
def reloadOrderIds (res : Except String (List RouteRow × CacheEntry)) : List String :=
  match res with
  | .ok (m, _) => m.map (fun r => r.functionId)
  | .error _ => []

/-- A cached row for the registry counterexample. -/
def c6row : RouteRow :=
  { extensionId := "e1", functionId := "f1", functionCode := "return",
    functionType := "after", routePath := "/x", routeMethod := "GET", priority := 0 }

/-- Registrations of user `alice`: extension `ext1` installed at timestamp
100 with a data table, and extension `extB` installed without one. -/
def c5regs : List Registration :=
  [ { userId := "alice", extensionId := "ext1",
      dataTableName := some (extTableName "alice" "ext1" "100") },
    { userId := "alice", extensionId := "extB", dataTableName := none } ]

/-- A store holding exactly extension `e1`, which declares one schema. -/
def c8state : InstallState :=
  { extensionIds := ["e1"], installCounts := [("e1", 0)],
    schemaRows := [("e1", some [("note", "text")])],
    userExtensions := [], tables := [] }

/-- An extension at version 2 with both version records present. -/
def c9db : ExtDb :=
  { extensions := [⟨"e1", "code-v2", 2⟩],
    versions := [⟨"e1", 1, "code-v1", none, none⟩, ⟨"e1", 2, "code-v2", none, none⟩] }

/-! ## Supporting lemmas -/

theorem filterMap_if_ne_nil {α β : Type} (l : List α) (t : α → Bool) (m : α → β)
    (h : l.any t = true) :
    l.filterMap (fun x => if t x then some (m x) else none) ≠ [] := by
  induction l with
  | nil => simp at h
  | cons a as ih =>
    by_cases ha : t a = true
    · simp [List.filterMap_cons, ha]
    · have haf : t a = false := by simpa using ha
      simp only [List.any_cons, Bool.or_eq_true] at h
      rcases h with h | h
      · exact absurd h ha
      · simp [List.filterMap_cons, haf, ih h]

theorem foldl_filter_of_skip {α β : Type} (step : β → α → β) (p : α → Bool)
    (hskip : ∀ acc r, p r = false → step acc r = acc) :
    ∀ (rs : List α) (acc : β), rs.foldl step acc = (rs.filter p).foldl step acc := by
  intro rs
  induction rs with
  | nil => intro acc; rfl
  | cons r rest ih =>
    intro acc
    by_cases hp : p r = true
    · simp [List.filter_cons, hp, ih]
    · have hpf : p r = false := by simpa using hp
      simp [List.filter_cons, hpf, hskip acc r hpf, ih]

theorem mergeStep_skip (acc : List (String × JVal)) (r : ExecutionResult)
    (h : r.success = false) : mergeStep acc r = acc := by
  simp [mergeStep, h]

theorem applyBeforeModsStep_skip (req : Request) (r : ExecutionResult)
    (h : r.success = false) : applyBeforeModsStep req r = req := by
  simp [applyBeforeModsStep, h]

/-! ## C3: static security validation rejects disallowed capability
references before any execution -/

/-- C3.  Any extension source matched by one of the scanner's disallowed
capability patterns (process access, `require()`, an import of
fs/child_process/os/net/http/https, `eval`, dynamic `Function` construction,
`__proto__` or `constructor.constructor`) is rejected by
`validateCodeSecurity` with a non-empty list of offending-pattern messages,
and `executeFunctions` never invokes the executor on such a hook: the hook's
result is a failure and its log row records the failure, so the rejected
source produces no effects. -/
theorem security_rejection_blocks_executor (code : String)
    (hdanger : referencesDisallowedCapability code = true) :
    (validateCodeSecurity code).isValid = false ∧
    (validateCodeSecurity code).issues ≠ [] ∧
    ∀ h : Hook, h.functionCode = code →
      (runHook h).executorInvoked = false ∧
      (runHook h).result.success = false ∧
      (runHook h).log.success = false := by
  have hissues : (validateCodeSecurity code).issues ≠ [] := by
    simpa [validateCodeSecurity] using
      filterMap_if_ne_nil dangerousPatterns (fun p => reTest p.1 code) (fun p => p.2)
        (by simpa [referencesDisallowedCapability] using hdanger)
  have hvalid : (validateCodeSecurity code).isValid = false := by
    simp only [validateCodeSecurity] at hissues ⊢
    simpa [List.length_eq_zero] using hissues
  refine ⟨hvalid, hissues, ?_⟩
  intro h hcode
  have hv : (validateCodeSecurity h.functionCode).isValid = false := by rw [hcode]; exact hvalid
  simp only [runHook, hv, Bool.false_eq_true, if_false]
  exact ⟨trivial, trivial, trivial⟩

/-- C3 witness: the source `"eval (x)"` is rejected and its hook never
reaches the executor. -/
theorem security_rejection_blocks_executor_witness :
    (validateCodeSecurity "eval (x)").isValid = false ∧
    (runHook c3hook).executorInvoked = false ∧
    (runHook c3hook).result.success = false := by
  have h := security_rejection_blocks_executor "eval (x)" (by decide)
  exact ⟨h.1, (h.2.2 c3hook rfl).1, (h.2.2 c3hook rfl).2.1⟩

/-! ## C7: exact route bindings match iff the path is byte-identical -/

/-- C7.  For a route binding of pattern kind `exact` whose method matches
the request (wildcard or equal), `ExtensionService.routeMatches` accepts
exactly the byte-identical path. -/
theorem exactMatches_iff (regexTest : String → String → Bool) (route : ExtensionRoute)
    (method path : String) (hkind : route.patternType = "exact")
    (hmethod : route.method = "*" ∨ route.method = method) :
    ExtensionService.routeMatches regexTest route method path = true ↔
      path = route.pathPattern := by
  have hguard : (route.method != "*" && route.method != method) = false := by
    rcases hmethod with h | h <;> simp [h]
  unfold ExtensionService.routeMatches
  rw [hguard, hkind]
  simp only [Bool.false_eq_true, if_false, beq_self_eq_true, if_true]
  exact ⟨fun hm => (beq_iff_eq.mp hm).symm, fun hp => beq_iff_eq.mpr hp.symm⟩

/-- C7 witness: the binding `GET /api/users` (kind `exact`) matches
`GET /api/users`. -/
theorem exactMatches_iff_witness :
    ExtensionService.routeMatches (fun _ _ => false) c7route "GET" "/api/users" = true :=
  (exactMatches_iff (fun _ _ => false) c7route "GET" "/api/users" rfl (Or.inr rfl)).mpr rfl

/-! ## The tenant data gateway: C5 and C10 -/

theorem mem_getUserExtensionTables (regs : List Registration) (uid s : String)
    (h : s ∈ getUserExtensionTables regs uid) :
    ∃ r ∈ regs, r.dataTableName = some s := by
  simp only [getUserExtensionTables, List.mem_filterMap] at h
  obtain ⟨r, hr, hf⟩ := h
  refine ⟨r, (List.mem_filter.mp hr).1, ?_⟩
  cases hd : r.dataTableName with
  | none => rw [hd] at hf; simp at hf
  | some t =>
    rw [hd] at hf
    by_cases ht : (t == "") = true
    · simp [ht] at hf
    · have htf : (t == "") = false := by simpa using ht
      simp only [htf, Bool.false_eq_true, if_false, Option.some.injEq] at hf
      exact congrArg some hf

theorem noDash_replaceDash (s : String) : '-' ∉ (replaceDash s).data := by
  intro hmem
  simp only [replaceDash, List.mem_map] at hmem
  obtain ⟨c, _, hc⟩ := hmem
  by_cases h : c = '-'
  · simp [h] at hc
  · simp [h] at hc

theorem noDash_extTableName (u e ts : String) (hts : '-' ∉ ts.data) :
    '-' ∉ (extTableName u e ts).data := by
  intro hmem
  simp only [extTableName, String.data_append, List.append_assoc, List.mem_append] at hmem
  rcases hmem with h | h | h | h | h
  · simp +decide at h
  · exact noDash_replaceDash u h
  · simp +decide at h
  · exact noDash_replaceDash e h
  · rcases h with h | h
    · simp +decide at h
    · exact hts h

theorem dash_mem_fullName (uid t : String) (h : '-' ∈ uid.data) :
    '-' ∈ ("ext_" ++ uid ++ "_" ++ t).data := by
  simp only [String.data_append, List.append_assoc, List.mem_append]
  exact Or.inr (Or.inl h)

/-- All four gateway entry points reject an unregistered derived table name
before producing any statement. -/
theorem gateway_denies (regs : List Registration) (uid t : String)
    (data whereData : List (String × String))
    (hnot : ("ext_" ++ uid ++ "_" ++ t) ∉ getUserExtensionTables regs uid) :
    validateTableAccess regs uid t = .error ("Access denied to table: " ++ t) ∧
    databaseInsert regs uid t data = .error ("Access denied to table: " ++ t) ∧
    databaseUpdate regs uid t data whereData = .error ("Access denied to table: " ++ t) ∧
    databaseDelete regs uid t whereData = .error ("Access denied to table: " ++ t) := by
  have hcont : (getUserExtensionTables regs uid).contains ("ext_" ++ uid ++ "_" ++ t) = false := by
    cases hc : (getUserExtensionTables regs uid).contains ("ext_" ++ uid ++ "_" ++ t) with
    | false => rfl
    | true => exact absurd (List.elem_iff.mp hc) hnot
  have hval : validateTableAccess regs uid t = .error ("Access denied to table: " ++ t) := by
    unfold validateTableAccess
    rw [hcont]
    rfl
  refine ⟨hval, ?_, ?_, ?_⟩ <;>
    simp only [databaseInsert, databaseUpdate, databaseDelete, hval] <;> rfl

/-- C10.  With install-produced registrations (whose names have every hyphen
rewritten to an underscore), a user id containing a hyphen can never pass
`validateTableAccess`: the derived name `ext_<userId>_<tableName>` keeps the
hyphen, so for every logical table name all typed calls fail with the
access-denied error and issue no SQL — even though the (user, extension)
pair does hold a registered data table. -/
theorem hyphenated_user_always_denied (regs : List Registration)
    (uid extensionId t : String) (data whereData : List (String × String))
    (hdash : '-' ∈ uid.data)
    (hinstall : ∀ r ∈ regs, ∀ s, r.dataTableName = some s →
       ∃ u e ts, s = extTableName u e ts ∧ '-' ∉ ts.data)
    (_hpair : ∃ r ∈ regs, r.userId = uid ∧ r.extensionId = extensionId ∧
       r.dataTableName.isSome = true) :
    validateTableAccess regs uid t = .error ("Access denied to table: " ++ t) ∧
    databaseInsert regs uid t data = .error ("Access denied to table: " ++ t) ∧
    databaseUpdate regs uid t data whereData = .error ("Access denied to table: " ++ t) ∧
    databaseDelete regs uid t whereData = .error ("Access denied to table: " ++ t) := by
  refine gateway_denies regs uid t data whereData ?_
  intro hmem
  obtain ⟨r, hr, hname⟩ := mem_getUserExtensionTables regs uid _ hmem
  obtain ⟨u, e, ts, hs, hts⟩ := hinstall r hr _ hname
  have hnodash : '-' ∉ ("ext_" ++ uid ++ "_" ++ t).data := by
    rw [hs]; exact noDash_extTableName u e ts hts
  exact hnodash (dash_mem_fullName uid t hdash)

/-- C10 witness: user `u-1` holds a registered table for extension `e1`,
yet every typed call on any logical name is denied. -/
theorem hyphenated_user_always_denied_witness :
    databaseInsert [⟨"u-1", "e1", some (extTableName "u-1" "e1" "99")⟩] "u-1" "tbl"
      [("c", "v")] = .error ("Access denied to table: " ++ "tbl") := by
  have h := hyphenated_user_always_denied
    [⟨"u-1", "e1", some (extTableName "u-1" "e1" "99")⟩] "u-1" "e1" "tbl"
    [("c", "v")] []
    (by decide)
    (by
      intro r hr s hs
      rw [List.mem_singleton] at hr
      subst hr
      refine ⟨"u-1", "e1", "99", ?_, by decide⟩
      simpa using hs.symm)
    ⟨⟨"u-1", "e1", some (extTableName "u-1" "e1" "99")⟩, by simp, rfl, rfl, rfl⟩
  exact h.2.1

/-- C5 counterexample: the data table of `ext1` (registered for the pair
(alice, ext1)) is reachable from a call made on behalf of extension `extB`:
the logical name `ext1_100` is not registered for the pair (alice, extB),
yet the insert passes validation and issues SQL instead of raising the
unauthorized-access error the claim requires. -/
theorem pair_scoping_counterexample :
    registeredForPair c5regs "alice" "extB" "ext1_100" = false ∧
    databaseInsert c5regs "alice" "ext1_100" [("col1", "v1")] =
      .ok (.insertStmt "ext_alice_ext1_100" ["col1"]) := by
  exact ⟨rfl, rfl⟩

/-- C5 (amended).  The gateway scopes validation to the user alone: a typed
insert/update/delete whose derived name `ext_<userId>_<tableName>` is not
among the data tables registered for ANY of the caller's installed
extensions raises the access-denied error before any SQL statement is
issued (the result carries no statement). -/
theorem unregistered_table_denied (regs : List Registration) (uid t : String)
    (data whereData : List (String × String))
    (hnot : ("ext_" ++ uid ++ "_" ++ t) ∉ getUserExtensionTables regs uid) :
    databaseInsert regs uid t data = .error ("Access denied to table: " ++ t) ∧
    databaseUpdate regs uid t data whereData = .error ("Access denied to table: " ++ t) ∧
    databaseDelete regs uid t whereData = .error ("Access denied to table: " ++ t) :=
  (gateway_denies regs uid t data whereData hnot).2

/-- C5 witness: with no registration at all, an insert into `notes` is
denied and issues nothing. -/
theorem unregistered_table_denied_witness :
    databaseInsert [] "alice" "notes" [("col1", "v1")] =
      .error ("Access denied to table: " ++ "notes") :=
  (unregistered_table_denied [] "alice" "notes" [("col1", "v1")] [] (by decide)).1

/-! ## The extension/route cache: C6 -/

/-- C6 counterexample: the cached entry (timestamp 0, 300000 ms old at a
TTL of 300000 ms) is stale, the reload fails, and `findMatchingExtensions`
returns the reload's error — the last good snapshot `[c6row]` is NOT
served, contradicting the claim's stale-but-available behaviour. -/
theorem stale_reload_failure_propagates :
    cacheStale (some ⟨[c6row], 0⟩) 300000 300000 = true ∧
    findMatchingExtensions (some ⟨[c6row], 0⟩) 300000 300000
      (.error "database unavailable") "/x" "GET" = .error "database unavailable" := by
  exact ⟨rfl, rfl⟩

/-- C6 (amended).  When the cached entry is missing or at/past its TTL,
`findMatchingExtensions` synchronously reloads before returning: fresh rows
are filtered, cached and served, but a reload failure propagates as the
error itself (caught only by `handle`'s outer catch, which bypasses the
extension pipeline) — the stale snapshot is not served. -/
theorem snapshot_ttl_reload (cache : Option CacheEntry) (now cacheExpiry : Nat)
    (reqPath reqMethod : String) (hstale : cacheStale cache now cacheExpiry = true) :
    (∀ e, findMatchingExtensions cache now cacheExpiry (.error e) reqPath reqMethod =
       .error e) ∧
    (∀ rows, findMatchingExtensions cache now cacheExpiry (.ok rows) reqPath reqMethod =
       reloadMatching (.ok rows) reqPath reqMethod now) := by
  cases cache with
  | none => exact ⟨fun e => rfl, fun rows => rfl⟩
  | some c =>
    have hc : (now - c.timestamp < cacheExpiry) = False := by
      simp only [cacheStale, Bool.not_eq_true', decide_eq_false_iff_not] at hstale
      simp [hstale]
    constructor
    · intro e
      simp only [findMatchingExtensions, hc, if_false]
      rfl
    · intro rows
      simp only [findMatchingExtensions, hc, if_false]

/-- C6 witness: a stale cache entry together with a successful reload of no
rows yields the freshly reloaded (empty) snapshot. -/
theorem snapshot_ttl_reload_witness :
    findMatchingExtensions (some ⟨[c6row], 0⟩) 300000 300000 (.ok []) "/x" "GET" =
      .ok ([], ⟨[], 300000⟩) := by
  have h := (snapshot_ttl_reload (some ⟨[c6row], 0⟩) 300000 300000 "/x" "GET" rfl).2 []
  rw [h]
  rfl

/-! ## Hook execution order: C2 -/

/-- C2.  With bindings of priorities `[5, 5, 10]` (function ids `a`, `b`,
`c`) inserted in that order, the middleware's load path — `ORDER BY
priority` ascending followed by the route filter — hands the hooks to
`executeFunctions` in the order `[a, b, c]`, i.e. lowest priority first,
whereas the claimed stable sort by priority descending gives `[c, a, b]`.
The schema's own comment on `routes.priority` says "Higher priority runs
first", so the executed order contradicts both the claim and the code's own
documentation. -/
theorem priority_order_ascending_bug :
    reloadOrderIds (reloadMatching (.ok c2rows) "/x" "GET" 0) = ["a", "b", "c"] ∧
    (specStableSortDesc c2rows).map (fun r => r.functionId) = ["c", "a", "b"] ∧
    reloadOrderIds (reloadMatching (.ok c2rows) "/x" "GET" 0) ≠
      (specStableSortDesc c2rows).map (fun r => r.functionId) := by
  refine ⟨rfl, rfl, ?_⟩
  decide

/-! ## Install/uninstall round-trip: C8 -/

theorem extTableName_ts_injective (u e ts1 ts2 : String)
    (h : extTableName u e ts1 = extTableName u e ts2) : ts1 = ts2 := by
  have hd := congrArg String.data h
  simp only [extTableName, String.data_append, List.append_assoc,
    List.append_cancel_left_eq] at hd
  exact String.ext hd

/-- C8 counterexample: install extension `e1` for user `u1` at timestamp
100, uninstall it, and install again at the same timestamp 100 (same
millisecond).  Both installs record the identical physical identifier
`ext_u1_e1_100` — the claimed distinctness within the same millisecond
fails, because the name depends only on (user, extension, `Date.now()`). -/
theorem same_millisecond_name_collision :
    (do
      let s1 ← installExtension c8state "u1" "e1" "100"
      let s2 ← uninstallExtension s1 "u1" "e1"
      let s3 ← installExtension s2 "u1" "e1" "100"
      pure (s1.userExtensions.map (fun r => r.dataTableName),
            s3.userExtensions.map (fun r => r.dataTableName))) =
      Except.ok (ε := String)
        ([some "ext_u1_e1_100"], [some "ext_u1_e1_100"]) := by
  rfl

/-- C8 (amended).  Installing an extension with a declared schema creates
its physical table and records the installation; uninstalling drops the
table and the record, restoring tables, installations and install counts.
Two installs produce distinct identifiers exactly when their `Date.now()`
timestamps differ: the identifier embeds only (user, extension, timestamp),
so installs in different milliseconds never collide, while installs in the
same millisecond yield the identical identifier. -/
theorem install_uninstall_roundTrip (st : InstallState) (uid eid ts1 : String)
    (cols : List (String × String))
    (hext : st.extensionIds.contains eid = true)
    (hnotinst : st.userExtensions.any
      (fun r => r.userId == uid && r.extensionId == eid) = false)
    (hschema : st.schemaRows.filter (fun p => p.1 == eid) = [(eid, some cols)])
    (hfresh : st.tables.contains (extTableName uid eid ts1) = false) :
    ∃ st1, installExtension st uid eid ts1 = .ok st1 ∧
      st1.tables = st.tables ++ [extTableName uid eid ts1] ∧
      st1.userExtensions =
        st.userExtensions ++ [⟨uid, eid, some (extTableName uid eid ts1)⟩] ∧
      (∃ st2, uninstallExtension st1 uid eid = .ok st2 ∧
        st2.tables = st.tables ∧ st2.userExtensions = st.userExtensions ∧
        st2.installCounts = st.installCounts) ∧
      ∀ ts2, ts1 ≠ ts2 → extTableName uid eid ts1 ≠ extTableName uid eid ts2 := by
  have hNmem : extTableName uid eid ts1 ∉ st.tables := by
    intro hm
    have hc : st.tables.contains (extTableName uid eid ts1) = true := List.elem_iff.mpr hm
    rw [hc] at hfresh
    exact Bool.true_eq_false.mp hfresh
  have hall : ∀ r ∈ st.userExtensions, ¬ (r.userId == uid && r.extensionId == eid) = true :=
    List.any_eq_false.mp hnotinst
  have hinstall : installExtension st uid eid ts1 = .ok
      { st with
        tables := st.tables ++ [extTableName uid eid ts1]
        userExtensions :=
          st.userExtensions ++ [⟨uid, eid, some (extTableName uid eid ts1)⟩]
        installCounts := st.installCounts.map
          (fun p => if p.1 == eid then (p.1, p.2 + 1) else p) } := by
    unfold installExtension
    rw [hext, hnotinst, hschema]
    simp only [Bool.not_true, Bool.false_eq_true, if_false, List.isEmpty_cons,
      List.foldl_cons, List.foldl_nil, createTableIfNotExists, hfresh]
  refine ⟨_, hinstall, rfl, rfl, ?_, ?_⟩
  · have hfind : (st.userExtensions ++
        [(⟨uid, eid, some (extTableName uid eid ts1)⟩ : UserExtensionRow)]).find?
          (fun r => r.userId == uid && r.extensionId == eid) =
        some ⟨uid, eid, some (extTableName uid eid ts1)⟩ := by
      rw [List.find?_append]
      have h1 : st.userExtensions.find?
          (fun r => r.userId == uid && r.extensionId == eid) = none :=
        List.find?_eq_none.mpr hall
      rw [h1]
      simp [List.find?]
    have huninstall : uninstallExtension
        { st with
          tables := st.tables ++ [extTableName uid eid ts1]
          userExtensions :=
            st.userExtensions ++ [⟨uid, eid, some (extTableName uid eid ts1)⟩]
          installCounts := st.installCounts.map
            (fun p => if p.1 == eid then (p.1, p.2 + 1) else p) } uid eid = .ok
        { extensionIds := st.extensionIds
          schemaRows := st.schemaRows
          tables := (st.tables ++ [extTableName uid eid ts1]).filter
            (fun t => !(t == extTableName uid eid ts1))
          userExtensions :=
            (st.userExtensions ++
              [(⟨uid, eid, some (extTableName uid eid ts1)⟩ : UserExtensionRow)]).filter
              (fun r => !(r.userId == uid && r.extensionId == eid))
          installCounts := (st.installCounts.map
            (fun p => if p.1 == eid then (p.1, p.2 + 1) else p)).map
            (fun p => if p.1 == eid then (p.1, p.2 - 1) else p) } := by
      unfold uninstallExtension
      rw [hfind]
    refine ⟨_, huninstall, ?_, ?_, ?_⟩
    · show (st.tables ++ [extTableName uid eid ts1]).filter
        (fun t => !(t == extTableName uid eid ts1)) = st.tables
      rw [List.filter_append]
      have h2 : st.tables.filter (fun t => !(t == extTableName uid eid ts1)) = st.tables := by
        refine List.filter_eq_self.mpr ?_
        intro a ha
        have : ¬ (a == extTableName uid eid ts1) = true := by
          intro hb
          exact hNmem (beq_iff_eq.mp hb ▸ ha)
        simp [this]
      rw [h2]
      simp
    · show (st.userExtensions ++
          [(⟨uid, eid, some (extTableName uid eid ts1)⟩ : UserExtensionRow)]).filter
            (fun r => !(r.userId == uid && r.extensionId == eid)) = st.userExtensions
      rw [List.filter_append]
      have h3 : st.userExtensions.filter
          (fun r => !(r.userId == uid && r.extensionId == eid)) = st.userExtensions := by
        refine List.filter_eq_self.mpr ?_
        intro a ha
        simp only [Bool.not_eq_true']
        simpa using hall a ha
      rw [h3]
      simp
    · show (st.installCounts.map (fun p => if p.1 == eid then (p.1, p.2 + 1) else p)).map
          (fun p => if p.1 == eid then (p.1, p.2 - 1) else p) = st.installCounts
      rw [List.map_map]
      have hid : ((fun p => if p.1 == eid then (p.1, p.2 - 1) else p) ∘
          (fun p => if p.1 == eid then (p.1, p.2 + 1) else p)) =
          (id : String × Nat → String × Nat) := by
        funext p
        by_cases hc : (p.1 == eid) = true
        · simp [Function.comp, hc]
        · have hcf : (p.1 == eid) = false := by simpa using hc
          simp [Function.comp, hcf]
      rw [hid, List.map_id]
  · intro ts2 hne hEq
    exact hne (extTableName_ts_injective uid eid ts1 ts2 hEq)

/-- C8 witness: the round trip on the concrete one-extension store. -/
theorem install_uninstall_roundTrip_witness :
    (∃ st1, installExtension c8state "u1" "e1" "100" = .ok st1 ∧
      st1.tables = ["ext_u1_e1_100"] ∧
      ∃ st2, uninstallExtension st1 "u1" "e1" = .ok st2 ∧ st2.tables = []) ∧
    extTableName "u1" "e1" "100" ≠ extTableName "u1" "e1" "101" := by
  have h := install_uninstall_roundTrip c8state "u1" "e1" "100" [("note", "text")]
    rfl rfl rfl rfl
  obtain ⟨st1, hi, ht, _, ⟨st2, hu, ht2, _, _⟩, hdist⟩ := h
  exact ⟨⟨st1, hi, ht, st2, hu, ht2⟩, hdist "101" (by decide)⟩

/-! ## Code versioning: C9 -/

theorem find?_map_of_pred {α : Type} (g : α → α) (p : α → Bool)
    (hp : ∀ r, p (g r) = p r) (l : List α) :
    (l.map g).find? p = (l.find? p).map g := by
  induction l with
  | nil => rfl
  | cons a as ih =>
    by_cases ha : p a = true
    · rw [List.map_cons, List.find?_cons_of_pos _ (by rw [hp a]; exact ha),
        List.find?_cons_of_pos _ ha, Option.map_some']
    · have haf : p a = false := by simpa using ha
      rw [List.map_cons, List.find?_cons_of_neg _ (by simp [hp a, haf]),
        List.find?_cons_of_neg _ (by simp [haf]), ih]

/-- C9 counterexample: on a store whose extension `e1` sits at version 2
with version records 1 and 2, `rollbackExtension` to version 1 rewrites the
stored code in place (`code-v2` becomes `code-v1`) while the version-record
list is unchanged and the version counter stays 2 — an operation that
changes the stored code without appending a version record or bumping the
counter, contradicting the claim. -/
theorem rollback_no_version_record :
    rollbackExtension c9db "e1" 1 =
      .ok { extensions := [⟨"e1", "code-v1", 2⟩], versions := c9db.versions } ∧
    c9db.extensions = [⟨"e1", "code-v2", 2⟩] :=
  ⟨rfl, rfl⟩

/-- C9 (amended).  `updateExtension` appends an immutable version record
carrying the bumped counter and writes the new code and counter onto the
extension row, so prior versions stay recoverable; `rollbackExtension`,
however, restores the target version's code in place WITHOUT appending a
version record or bumping the counter — only update satisfies the
append-and-bump discipline. -/
theorem update_appends_rollback_does_not (db : ExtDb) (eid newCode : String)
    (desc creator : Option String) (tv : Nat) (ext : ExtRecord) (ver : VersionRecord)
    (hfindE : db.extensions.find? (fun r => r.id == eid) = some ext)
    (hfindV : db.versions.find?
      (fun v => v.extensionId == eid && v.version == tv) = some ver) :
    (∃ db1, updateExtension db eid newCode desc creator = .ok db1 ∧
       db1.versions = db.versions ++ [⟨eid, ext.version + 1, newCode, desc, creator⟩] ∧
       db1.extensions.find? (fun r => r.id == eid) =
         some { ext with code := newCode, version := ext.version + 1 }) ∧
    (∃ db2, rollbackExtension db eid tv = .ok db2 ∧
       db2.versions = db.versions ∧
       db2.extensions.find? (fun r => r.id == eid) =
         some { ext with code := ver.code }) := by
  have hid := List.find?_some hfindE
  constructor
  · have hup : updateExtension db eid newCode desc creator = .ok
        ⟨db.extensions.map
          (fun r => if r.id == eid then
            { r with code := newCode, version := ext.version + 1 } else r),
         db.versions ++ [⟨eid, ext.version + 1, newCode, desc, creator⟩]⟩ := by
      unfold updateExtension
      rw [hfindE]
    refine ⟨_, hup, rfl, ?_⟩
    show (db.extensions.map (fun r => if r.id == eid then
        { r with code := newCode, version := ext.version + 1 } else r)).find?
        (fun r => r.id == eid) = _
    rw [find?_map_of_pred _ _ (fun r => by by_cases h : (r.id == eid) = true <;> simp [h]),
      hfindE, Option.map_some']
    simp [hid]
  · have hroll : rollbackExtension db eid tv = .ok
        ⟨db.extensions.map
          (fun r => if r.id == eid then { r with code := ver.code } else r),
         db.versions⟩ := by
      unfold rollbackExtension
      rw [hfindV]
    refine ⟨_, hroll, rfl, ?_⟩
    show (db.extensions.map (fun r => if r.id == eid then
        { r with code := ver.code } else r)).find? (fun r => r.id == eid) = _
    rw [find?_map_of_pred _ _ (fun r => by by_cases h : (r.id == eid) = true <;> simp [h]),
      hfindE, Option.map_some']
    simp [hid]

/-- C9 witness: on the concrete store, update appends the version-3 record
while rollback leaves the version list untouched. -/
theorem update_appends_rollback_does_not_witness :
    (∃ db1, updateExtension c9db "e1" "code-v3" none none = .ok db1 ∧
       db1.versions = c9db.versions ++ [⟨"e1", 3, "code-v3", none, none⟩]) ∧
    (∃ db2, rollbackExtension c9db "e1" 1 = .ok db2 ∧ db2.versions = c9db.versions) := by
  have h := update_appends_rollback_does_not c9db "e1" "code-v3" none none 1
    ⟨"e1", "code-v2", 2⟩ ⟨"e1", 1, "code-v1", none, none⟩ rfl rfl
  obtain ⟨⟨db1, h1, h2, _⟩, ⟨db2, h3, h4, _⟩⟩ := h
  exact ⟨⟨db1, h1, h2⟩, ⟨db2, h3, h4⟩⟩

/-! ## The replace short-circuit: C1 -/

/-- C1.  When the matched set holds at least one replace-phase hook:
if some replace execution result succeeds, `handle` responds with exactly
the first successful result (status/headers/body all derived from its data),
the proxy is never invoked (`originCalls = 0`) and no after/transform hook
runs (`afterExecuted = []`, and the trace's logs are exactly the
before-phase and replace-phase rows); if every replace hook fails, the
pipeline falls through to the proxy (`originCalls = 1`). -/
theorem replace_shortcircuit (matching : List Hook) (uid : String) (req : Request)
    (proxy : Request → Except String ProxyResp) (comps : List ComponentInjection)
    (hrep : (matching.filter (fun h => h.functionType == "replace")).isEmpty = false) :
    (∀ r, (replaceResults matching).find? (fun r => r.success) = some r →
       handle matching (some uid) req proxy comps =
         (.respond (replaceStatus r.data) (replaceHeaders r.data) (replaceBody r.data),
          ⟨0, [],
           (executeFunctions (matching.filter (fun h => h.functionType == "before"))).map
             (fun hr => hr.log) ++
           (executeFunctions (matching.filter (fun h => h.functionType == "replace"))).map
             (fun hr => hr.log)⟩)) ∧
    ((replaceResults matching).find? (fun r => r.success) = none →
       (handle matching (some uid) req proxy comps).2.originCalls = 1) := by
  have hne : matching.isEmpty = false := by
    cases matching with
    | nil => exact absurd hrep (by simp)
    | cons a l => rfl
  constructor
  · intro r hfind
    simp only [replaceResults] at hfind
    unfold handle
    rw [hne]
    simp only [Bool.false_eq_true, if_false]
    rw [hfind]
  · intro hfind
    simp only [replaceResults] at hfind
    unfold handle
    rw [hne]
    simp only [Bool.false_eq_true, if_false]
    rw [hfind]
    split
    · contradiction
    · split
      · rfl
      · rfl

/-- C1 witness: of the three replace hooks only the later two succeed; the
response is the second hook's output (`body = "hi"`, status 200), the
origin is never called and no after/transform hook runs. -/
theorem replace_shortcircuit_witness :
    (handle c1matching (some "u1") c1req (fun _ => .error "origin down") []).1 =
      .respond 200 [] (.jstr "hi") ∧
    (handle c1matching (some "u1") c1req (fun _ => .error "origin down") []).2.originCalls = 0 ∧
    (handle c1matching (some "u1") c1req (fun _ => .error "origin down") []).2.afterExecuted
      = [] := by
  have h := (replace_shortcircuit c1matching "u1" c1req
      (fun _ => .error "origin down") [] rfl).1
    ⟨true, .jobj [("body", .jstr "hi")], none⟩ rfl
  rw [h]
  exact ⟨rfl, rfl, rfl⟩

/-! ## Hook failure isolation: C4 -/

/-- The pipeline always reaches a response when the proxy succeeds and at
least one hook matched, whatever the individual hooks do. -/
theorem handle_responds_of_proxy_ok (matching : List Hook) (uid : String) (req : Request)
    (presp : ProxyResp) (comps : List ComponentInjection)
    (hne : matching.isEmpty = false) :
    (handle matching (some uid) req (fun _ => .ok presp) comps).1.isRespond = true := by
  unfold handle
  rw [hne]
  simp only [Bool.false_eq_true, if_false]
  split
  · rfl
  · rfl

/-- C4.  A hook whose execution throws (here the `i`-th of the matched
hooks, with source accepted by security validation) is caught:
`executeFunctions` still yields one result per hook, the `i`-th log row
records the failure with its error, the `i`-th result is an unsuccessful
no-data result, `mergeResults` and the before-phase modification fold are
unchanged by unsuccessful results (no contribution to request or response),
and with a reachable origin the pipeline still produces a response. -/
theorem hook_failure_isolated (hooks : List Hook) (i : Nat) (h : Hook) (e : String)
    (uid : String) (req : Request) (presp : ProxyResp) (comps : List ComponentInjection)
    (hget : hooks[i]? = some h)
    (hsec : (validateCodeSecurity h.functionCode).isValid = true)
    (hthrow : h.behavior = .throws e) :
    (executeFunctions hooks).length = hooks.length ∧
    ((executeFunctions hooks).map (fun hr => hr.log))[i]? =
      some ⟨h.functionId, false, some e⟩ ∧
    ((executeFunctions hooks).map (fun hr => hr.result))[i]? =
      some ⟨false, .jundef, some e⟩ ∧
    (∀ (d : JVal) (rs : List ExecutionResult),
       mergeResults d rs = mergeResults d (rs.filter (fun r => r.success))) ∧
    (∀ (req0 : Request) (rs : List ExecutionResult),
       applyBeforeMods req0 rs = applyBeforeMods req0 (rs.filter (fun r => r.success))) ∧
    (handle hooks (some uid) req (fun _ => .ok presp) comps).1.isRespond = true := by
  have hrun : runHook h =
      { result := ⟨false, .jundef, some e⟩, log := ⟨h.functionId, false, some e⟩,
        executorInvoked := true } := by
    unfold runHook
    rw [hsec]
    simp only [if_true]
    rw [hthrow]
  have hne : hooks.isEmpty = false := by
    cases hooks with
    | nil => simp at hget
    | cons a l => rfl
  refine ⟨?_, ?_, ?_, ?_, ?_, handle_responds_of_proxy_ok hooks uid req presp comps hne⟩
  · simp [executeFunctions]
  · rw [executeFunctions, List.map_map, List.getElem?_map, hget, Option.map_some']
    simp [Function.comp, hrun]
  · rw [executeFunctions, List.map_map, List.getElem?_map, hget, Option.map_some']
    simp [Function.comp, hrun]
  · intro d rs
    unfold mergeResults
    rw [foldl_filter_of_skip mergeStep (fun r => r.success)
      (fun acc r hskip => mergeStep_skip acc r hskip) rs d.toFields]
  · intro req0 rs
    unfold applyBeforeMods
    rw [foldl_filter_of_skip applyBeforeModsStep (fun r => r.success)
      (fun acc r hskip => applyBeforeModsStep_skip acc r hskip) rs req0]

/-- C4 witness: the single matched after hook throws `"boom"`; its failure
is logged and the pipeline still responds using the origin's result. -/
theorem hook_failure_isolated_witness :
    ((executeFunctions [c4hook]).map (fun hr => hr.log))[0]? =
      some ⟨"fT", false, some "boom"⟩ ∧
    (handle [c4hook] (some "u1") c1req
      (fun _ => .ok ⟨.jobj [("ok", .jbool true)], 200, []⟩) []).1.isRespond = true := by
  have h := hook_failure_isolated [c4hook] 0 c4hook "boom" "u1" c1req
    ⟨.jobj [("ok", .jbool true)], 200, []⟩ [] rfl (by decide) rfl
  exact ⟨h.2.1, h.2.2.2.2.2⟩

end Acacia
